import Mathlib

set_option maxRecDepth 10000

/-!
Verification of the config-file parser in `cpp_parse_config.hpp`
(KuzinAndrey/c_cpp_config_parser).

The parser is a character-by-character finite-state machine reading a
`key = value` line grammar and filling an insert-if-absent map from
parameter names to values.  We embed the scanning loop of `parse_config`
shallowly: the input stream becomes a `List Char`, the two fixed-size
character buffers `param_name` / `param_value` become the lists of
characters accumulated so far (the C code always NUL-terminates at the
current fill index before using a buffer as a string, so the meaningful
content is exactly this prefix), and `std::unordered_map::insert` becomes
insertion into an association list only when the key is absent.

File opening and the null-destination check (`CONFERR_NORET`,
`CONFERR_ERRFILE`) are I/O concerns outside the scanning loop and are not
modelled; `parse_config` below models the loop over the characters of an
already-opened stream, returning the status code together with the final
contents of the destination map (which the C code clears on every error
return).
-/

namespace CppParseConfig

/-- Error code `CONFERR_WRONGSYNTAX` (-3): wrong syntax of config file. -/
def CONFERR_WRONGSYNTAX : Int := -3

/-- Error code `CONFERR_WRONGPARAM` (-4): wrong parameter name. -/
def CONFERR_WRONGPARAM : Int := -4

/-- Error code `CONFERR_WRONGVALUE` (-5): wrong parameter value. -/
def CONFERR_WRONGVALUE : Int := -5

/-- `CONF_PARAM_NAME_MAX_LEN` (default 30): size of the name buffer. -/
def CONF_PARAM_NAME_MAX_LEN : Nat := 30

/-- `CONF_PARAM_VALUE_MAX_LEN` (default 255): size of the value buffer. -/
def CONF_PARAM_VALUE_MAX_LEN : Nat := 255

/-- C `isspace` in the "C" locale: space, tab, newline, vertical tab,
form feed, carriage return.  Bytes outside this set (including all
non-ASCII bytes) are not spaces. -/
def isspace (c : Char) : Bool :=
  c = ' ' || c = '\t' || c = '\n' || c = Char.ofNat 11 || c = Char.ofNat 12 || c = '\r'

/-- C `isalpha` in the "C" locale: `A`-`Z` and `a`-`z` only. -/
def isalpha (c : Char) : Bool :=
  ('A' ≤ c && c ≤ 'Z') || ('a' ≤ c && c ≤ 'z')

/-- C `isdigit`: `0`-`9`. -/
def isdigit (c : Char) : Bool :=
  '0' ≤ c && c ≤ '9'

/-- The destination map: an association list recording the order of first
insertion.  `std::unordered_map` has no observable order; we keep
insertion order so that lookups model `unordered_map::find`. -/
abbrev ConfigMap := List (String × String)

/-- `ret->insert(std::make_pair(name, value))`:
`std::unordered_map::insert` inserts only if the key is not already
present; a duplicate key leaves the map unchanged. -/
def mapInsert (m : ConfigMap) (k v : String) : ConfigMap :=
  if (m.lookup k).isSome then m else m ++ [(k, v)]

/-- The `parse_mode` enumeration of the scanner. -/
inductive Mode where
  | skipSpace
  | skipCommentLine
  | paramName
  | skipSpaceBeforeEqual
  | skipSpaceAfterEqual
  | value
  | lineEnd
  | valueInSingleQuote
  | valueInDoubleQuote
  deriving DecidableEq, Repr

/-- The scanner state: current mode, the accumulated name and value
(the meaningful prefixes of the `param_name` / `param_value` buffers;
`name_fill` / `value_fill` are their lengths), the diagnostic line
counter, and the destination map built so far. -/
structure St where
  mode : Mode
  param_name : List Char
  param_value : List Char
  line : Nat
  ret : ConfigMap
  deriving DecidableEq, Repr

/-- One iteration of the `switch (mode)` statement of `parse_config` on a
character that was not equal to `EOF`: either an error code (at which
point the C code clears the map and returns) or the updated state. -/
def step (s : St) (c : Char) : Except Int St :=
  match s.mode with
  | Mode.skipSpace =>
    if c = '#' then Except.ok { s with mode := Mode.skipCommentLine }
    else if c = '\n' then Except.ok { s with line := s.line + 1 }
    else if isalpha c then
      Except.ok { s with param_name := [c], mode := Mode.paramName }
    else if !isspace c then Except.error CONFERR_WRONGPARAM
    else Except.ok s
  | Mode.skipCommentLine =>
    if c = '\n' then Except.ok { s with line := s.line + 1, mode := Mode.skipSpace }
    else Except.ok s
  | Mode.paramName =>
    if isspace c then
      Except.ok { s with line := if c = '\n' then s.line + 1 else s.line,
                         mode := Mode.skipSpaceBeforeEqual }
    else if c = '=' then
      Except.ok { s with mode := Mode.skipSpaceAfterEqual }
    else if isalpha c || isdigit c || c = '_' then
      if s.param_name.length + 1 > CONF_PARAM_NAME_MAX_LEN - 1 then
        Except.error CONFERR_WRONGPARAM
      else Except.ok { s with param_name := s.param_name ++ [c] }
    else Except.error CONFERR_WRONGPARAM
  | Mode.skipSpaceBeforeEqual =>
    if isspace c then
      Except.ok { s with line := if c = '\n' then s.line + 1 else s.line }
    else if c = '=' then
      Except.ok { s with mode := Mode.skipSpaceAfterEqual }
    else Except.ok s
  | Mode.skipSpaceAfterEqual =>
    if isspace c then
      Except.ok { s with line := if c = '\n' then s.line + 1 else s.line }
    else if c = '\'' then
      Except.ok { s with mode := Mode.valueInSingleQuote, param_value := [] }
    else if c = '"' then
      Except.ok { s with mode := Mode.valueInDoubleQuote, param_value := [] }
    else if c = '#' then
      Except.ok { s with param_value := [],
                         ret := mapInsert s.ret (String.mk s.param_name) "",
                         mode := Mode.skipCommentLine }
    else Except.ok { s with param_value := [c], mode := Mode.value }
  | Mode.value =>
    if isspace c || c = '#' then
      let r := mapInsert s.ret (String.mk s.param_name) (String.mk s.param_value)
      if c = '\n' then
        Except.ok { s with line := s.line + 1, mode := Mode.skipSpace, ret := r }
      else if c = '#' then
        Except.ok { s with mode := Mode.skipCommentLine, ret := r }
      else
        Except.ok { s with mode := Mode.lineEnd, ret := r }
    else if s.param_value.length + 1 > CONF_PARAM_VALUE_MAX_LEN - 1 then
      Except.error CONFERR_WRONGVALUE
    else Except.ok { s with param_value := s.param_value ++ [c] }
  | Mode.lineEnd =>
    if isspace c then
      if c = '\n' then
        Except.ok { s with line := s.line + 1, mode := Mode.skipSpace }
      else Except.ok s
    else if c = '#' then
      Except.ok { s with mode := Mode.skipCommentLine }
    else Except.error CONFERR_WRONGSYNTAX
  | Mode.valueInSingleQuote =>
    if c ≠ '\'' then
      if s.param_value.length + 1 > CONF_PARAM_VALUE_MAX_LEN - 1 then
        Except.error CONFERR_WRONGVALUE
      else
        Except.ok { s with line := if c = '\n' then s.line + 1 else s.line,
                           param_value := s.param_value ++ [c] }
    else
      Except.ok { s with ret := mapInsert s.ret (String.mk s.param_name)
                                  (String.mk s.param_value),
                         mode := Mode.skipSpace }
  | Mode.valueInDoubleQuote =>
    if c ≠ '"' then
      if s.param_value.length + 1 > CONF_PARAM_VALUE_MAX_LEN - 1 then
        Except.error CONFERR_WRONGVALUE
      else
        Except.ok { s with line := if c = '\n' then s.line + 1 else s.line,
                           param_value := s.param_value ++ [c] }
    else
      Except.ok { s with ret := mapInsert s.ret (String.mk s.param_name)
                                  (String.mk s.param_value),
                         mode := Mode.skipSpace }

/-- Whether the scanner is inside a quoted value (the two modes checked by
the `c == EOF` branch of the loop). -/
def inQuote (m : Mode) : Bool :=
  m = Mode.valueInSingleQuote || m = Mode.valueInDoubleQuote

/-- The `while (fconf.get(c))` loop of `parse_config`.

Each successfully read character is first compared against `EOF`: with the
usual signed `char`, the byte `0xFF` promotes to `-1 == EOF`, so reading
that byte commits the pending quoted value (if any) and stops the scan
with success.  When the stream is simply exhausted, `fconf.get(c)` fails
and the loop exits directly — the `c == EOF` branch is not executed —
and the function returns 0 with the map as built so far.

On an error from the `switch`, the C code does `ret->clear()` and returns
the code, so the result map is empty. -/
def parseLoop : List Char → St → Int × ConfigMap
  | [], s => (0, s.ret)
  | c :: cs, s =>
    if c.toNat = 255 then
      if inQuote s.mode then
        (0, mapInsert s.ret (String.mk s.param_name) (String.mk s.param_value))
      else (0, s.ret)
    else
      match step s c with
      | Except.error e => (e, [])
      | Except.ok s' => parseLoop cs s'

/-- The initial state of `parse_config`: mode `parse_skip_space`, line 1,
empty destination map (the buffers start with no meaningful content). -/
def initSt : St :=
  { mode := Mode.skipSpace, param_name := [], param_value := [], line := 1, ret := [] }

/-- `parse_config` on the characters of an already-opened stream: returns
the status code (0 on success) and the final contents of the destination
map. -/
def parse_config (input : List Char) : Int × ConfigMap :=
  parseLoop input initSt

/-! Basic unfolding lemmas for the loop. -/

/-- Unfolding the loop on a non-`EOF` character whose `switch` iteration
succeeds. -/
theorem parseLoop_cons_ok {s s' : St} {c : Char} (h255 : c.toNat ≠ 255)
    (h : step s c = Except.ok s') (cs : List Char) :
    parseLoop (c :: cs) s = parseLoop cs s' := by
  simp only [parseLoop]
  rw [if_neg h255, h]

/-- Unfolding the loop on a non-`EOF` character whose `switch` iteration
errors: the map is cleared and the code returned. -/
theorem parseLoop_cons_err {s : St} {c : Char} {e : Int} (h255 : c.toNat ≠ 255)
    (h : step s c = Except.error e) (cs : List Char) :
    parseLoop (c :: cs) s = (e, []) := by
  simp only [parseLoop]
  rw [if_neg h255, h]

/-! Lemmas about the insert-if-absent map. -/

/-- A lookup that succeeds in `m` succeeds with the same value in `m ++ t`. -/
theorem lookup_append_of_some {k v : String} :
    ∀ (m t : ConfigMap), m.lookup k = some v → (m ++ t).lookup k = some v := by
  intro m
  induction m with
  | nil => intro t h; simp [List.lookup] at h
  | cons p m ih =>
    intro t h
    obtain ⟨a, b⟩ := p
    cases hk : k == a with
    | true =>
      simp only [List.cons_append, List.lookup, hk] at h ⊢
      exact h
    | false =>
      simp only [List.cons_append, List.lookup, hk] at h ⊢
      exact ih t h

/-- `mapInsert` never changes the value an existing key looks up to. -/
theorem lookup_mapInsert_of_some {m : ConfigMap} {k v : String} (q w : String)
    (h : m.lookup k = some v) : (mapInsert m q w).lookup k = some v := by
  unfold mapInsert
  split
  · exact h
  · exact lookup_append_of_some _ _ h

/-- Inserting a key that is already present leaves the map unchanged:
`std::unordered_map::insert` ignores duplicates. -/
theorem mapInsert_of_mem {m : ConfigMap} {k v : String} (w : String)
    (h : m.lookup k = some v) : mapInsert m k w = m := by
  unfold mapInsert
  rw [if_pos (by rw [h]; rfl)]

/-! Lemmas about a single `switch` iteration. -/

/-- Every error exiting the `switch` is one of the three parse errors. -/
theorem step_error_codes {s : St} {c : Char} {e : Int}
    (h : step s c = Except.error e) :
    e = CONFERR_WRONGSYNTAX ∨ e = CONFERR_WRONGPARAM ∨ e = CONFERR_WRONGVALUE := by
  cases hm : s.mode <;> simp only [step, hm] at h <;> split_ifs at h <;>
    simp_all

/-- A successful `switch` iteration only ever grows the map through
`mapInsert`, so an existing binding survives it. -/
theorem step_preserves_lookup {s s' : St} {c : Char}
    (h : step s c = Except.ok s') {k v : String}
    (hk : s.ret.lookup k = some v) : s'.ret.lookup k = some v := by
  cases hm : s.mode <;> simp only [step, hm] at h <;> split_ifs at h <;>
    simp only [Except.ok.injEq] at h <;> subst h <;>
    simp_all [lookup_mapInsert_of_some]

/-! Lemmas about whole runs of the loop. -/

/-- On a run that ends in success, a binding present in the starting state
survives to the final map: later inserts with the same key are ignored. -/
theorem parseLoop_preserves_lookup :
    ∀ (cs : List Char) (s : St) (k v : String),
      s.ret.lookup k = some v → (parseLoop cs s).1 = 0 →
      (parseLoop cs s).2.lookup k = some v := by
  intro cs
  induction cs with
  | nil =>
    intro s k v hk _
    simpa [parseLoop] using hk
  | cons c cs ih =>
    intro s k v hk hz
    by_cases h255 : c.toNat = 255
    · simp only [parseLoop, if_pos h255]
      by_cases hq : inQuote s.mode = true
      · rw [if_pos hq]
        exact lookup_mapInsert_of_some _ _ hk
      · rw [if_neg hq]
        exact hk
    · cases hstep : step s c with
      | error e =>
        rw [parseLoop_cons_err h255 hstep] at hz
        rcases step_error_codes hstep with h | h | h <;> subst h <;>
          simp [CONFERR_WRONGSYNTAX, CONFERR_WRONGPARAM, CONFERR_WRONGVALUE] at hz
      | ok s' =>
        rw [parseLoop_cons_ok h255 hstep] at hz ⊢
        exact ih s' k v (step_preserves_lookup hstep hk) hz

/-- On a run that ends with a non-zero code, the code is one of the three
parse errors, the resulting map is empty, and the run is oblivious to any
further input: the scan aborted at the offending character. -/
theorem parseLoop_error_spec :
    ∀ (cs : List Char) (s : St), (parseLoop cs s).1 ≠ 0 →
      ((parseLoop cs s).1 = CONFERR_WRONGSYNTAX ∨
        (parseLoop cs s).1 = CONFERR_WRONGPARAM ∨
        (parseLoop cs s).1 = CONFERR_WRONGVALUE) ∧
      (parseLoop cs s).2 = [] ∧
      ∀ t, parseLoop (cs ++ t) s = parseLoop cs s := by
  intro cs
  induction cs with
  | nil =>
    intro s h
    simp [parseLoop] at h
  | cons c cs ih =>
    intro s h
    by_cases h255 : c.toNat = 255
    · exfalso
      apply h
      simp only [parseLoop, if_pos h255]
      by_cases hq : inQuote s.mode = true
      · rw [if_pos hq]
      · rw [if_neg hq]
    · cases hstep : step s c with
      | error e =>
        rw [parseLoop_cons_err h255 hstep] at h ⊢
        refine ⟨step_error_codes hstep, rfl, ?_⟩
        intro t
        rw [List.cons_append, parseLoop_cons_err h255 hstep]
      | ok s' =>
        rw [parseLoop_cons_ok h255 hstep] at h ⊢
        obtain ⟨h1, h2, h3⟩ := ih s' h
        refine ⟨h1, h2, ?_⟩
        intro t
        rw [List.cons_append, parseLoop_cons_ok h255 hstep, h3]

/-- In `parse_value`, a run of characters that are not spaces, not `#` and
not the `EOF` byte is appended to the value buffer verbatim, provided the
buffer bound is never hit. -/
theorem parseLoop_value_run :
    ∀ (v : List Char) (s : St) (rest : List Char),
      s.mode = Mode.value →
      (∀ c ∈ v, isspace c = false ∧ c ≠ '#' ∧ c.toNat ≠ 255) →
      s.param_value.length + v.length ≤ CONF_PARAM_VALUE_MAX_LEN - 1 →
      parseLoop (v ++ rest) s =
        parseLoop rest { s with param_value := s.param_value ++ v } := by
  intro v
  induction v with
  | nil =>
    intro s rest _ _ _
    simp only [List.nil_append, List.append_nil]
  | cons c v ih =>
    intro s rest hm hv hlen
    obtain ⟨hsp, hh, h255⟩ := hv c (List.mem_cons_self c v)
    have h1 : (isspace c || c = '#') = false := by simp [hsp, hh]
    have h2 : ¬ (s.param_value.length + 1 > CONF_PARAM_VALUE_MAX_LEN - 1) := by
      simp only [List.length_cons] at hlen; omega
    have hstep : step s c = Except.ok { s with param_value := s.param_value ++ [c] } := by
      simp only [step, hm, h1, Bool.false_eq_true, if_false, if_neg h2]
    rw [List.cons_append, parseLoop_cons_ok h255 hstep,
      ih { s with param_value := s.param_value ++ [c] } rest hm
        (fun d hd => hv d (List.mem_cons_of_mem c hd))
        (by simp only [List.length_append, List.length_cons, List.length_nil] at hlen ⊢; omega)]
    simp [List.append_assoc]

/-- In `parse_value_in_single_quote`, a run of characters that are not the
closing quote, not newlines and not the `EOF` byte is appended verbatim,
provided the buffer bound is never hit. -/
theorem parseLoop_squote_run :
    ∀ (v : List Char) (s : St) (rest : List Char),
      s.mode = Mode.valueInSingleQuote →
      (∀ c ∈ v, c ≠ '\'' ∧ c ≠ '\n' ∧ c.toNat ≠ 255) →
      s.param_value.length + v.length ≤ CONF_PARAM_VALUE_MAX_LEN - 1 →
      parseLoop (v ++ rest) s =
        parseLoop rest { s with param_value := s.param_value ++ v } := by
  intro v
  induction v with
  | nil =>
    intro s rest _ _ _
    simp only [List.nil_append, List.append_nil]
  | cons c v ih =>
    intro s rest hm hv hlen
    obtain ⟨hq, hn, h255⟩ := hv c (List.mem_cons_self c v)
    have h2 : ¬ (s.param_value.length + 1 > CONF_PARAM_VALUE_MAX_LEN - 1) := by
      simp only [List.length_cons] at hlen; omega
    have hstep : step s c = Except.ok { s with param_value := s.param_value ++ [c] } := by
      simp only [step, hm, if_pos hq, if_neg h2, if_neg hn]
    rw [List.cons_append, parseLoop_cons_ok h255 hstep,
      ih { s with param_value := s.param_value ++ [c] } rest hm
        (fun d hd => hv d (List.mem_cons_of_mem c hd))
        (by simp only [List.length_append, List.length_cons, List.length_nil] at hlen ⊢; omega)]
    simp [List.append_assoc]

/-- In `parse_value_in_double_quote`, the same as `parseLoop_squote_run`
with the double-quote delimiter. -/
theorem parseLoop_dquote_run :
    ∀ (v : List Char) (s : St) (rest : List Char),
      s.mode = Mode.valueInDoubleQuote →
      (∀ c ∈ v, c ≠ '"' ∧ c ≠ '\n' ∧ c.toNat ≠ 255) →
      s.param_value.length + v.length ≤ CONF_PARAM_VALUE_MAX_LEN - 1 →
      parseLoop (v ++ rest) s =
        parseLoop rest { s with param_value := s.param_value ++ v } := by
  intro v
  induction v with
  | nil =>
    intro s rest _ _ _
    simp only [List.nil_append, List.append_nil]
  | cons c v ih =>
    intro s rest hm hv hlen
    obtain ⟨hq, hn, h255⟩ := hv c (List.mem_cons_self c v)
    have h2 : ¬ (s.param_value.length + 1 > CONF_PARAM_VALUE_MAX_LEN - 1) := by
      simp only [List.length_cons] at hlen; omega
    have hstep : step s c = Except.ok { s with param_value := s.param_value ++ [c] } := by
      simp only [step, hm, if_pos hq, if_neg h2, if_neg hn]
    rw [List.cons_append, parseLoop_cons_ok h255 hstep,
      ih { s with param_value := s.param_value ++ [c] } rest hm
        (fun d hd => hv d (List.mem_cons_of_mem c hd))
        (by simp only [List.length_append, List.length_cons, List.length_nil] at hlen ⊢; omega)]
    simp [List.append_assoc]

/-- In `parse_skip_space_before_equal`, any character other than `=` leaves
the state unchanged apart from the line counter: spaces are skipped by the
explicit branch and everything else falls out of the `switch` untouched. -/
theorem step_skipBeforeEqual (s : St) (c : Char)
    (hm : s.mode = Mode.skipSpaceBeforeEqual) (hc : c ≠ '=') :
    step s c = Except.ok { s with line := if c = '\n' then s.line + 1 else s.line } := by
  obtain ⟨m, pn, pv, ln, rt⟩ := s
  simp only at hm
  subst hm
  by_cases hsp : isspace c = true
  · simp only [step, if_pos hsp]
  · have hn : c ≠ '\n' := by
      intro h
      subst h
      simp [isspace] at hsp
    simp only [step, if_neg hsp, if_neg hc, if_neg hn]

/-- A run of non-`=` (and non-`EOF`-byte) characters in
`parse_skip_space_before_equal` is discarded entirely; only the line
counter advances, by the number of newlines consumed. -/
theorem parseLoop_skipBeforeEqual_run :
    ∀ (junk : List Char) (s : St) (rest : List Char),
      s.mode = Mode.skipSpaceBeforeEqual →
      (∀ c ∈ junk, c ≠ '=' ∧ c.toNat ≠ 255) →
      parseLoop (junk ++ rest) s =
        parseLoop rest { s with line := s.line + junk.countP (fun c => c = '\n') } := by
  intro junk
  induction junk with
  | nil =>
    intro s rest _ _
    simp only [List.nil_append, List.countP_nil, Nat.add_zero]
  | cons c junk ih =>
    intro s rest hm hj
    obtain ⟨m, pn, pv, ln, rt⟩ := s
    simp only at hm
    subst hm
    obtain ⟨hc, h255⟩ := hj c (List.mem_cons_self c junk)
    rw [List.cons_append,
      parseLoop_cons_ok h255 (step_skipBeforeEqual _ c rfl hc),
      ih _ rest rfl (fun d hd => hj d (List.mem_cons_of_mem c hd))]
    have harith : (if c = '\n' then ln + 1 else ln) + junk.countP (fun c => c = '\n')
        = ln + (c :: junk).countP (fun c => c = '\n') := by
      rw [List.countP_cons]
      by_cases hn : c = '\n'
      · simp only [hn, decide_True, if_true]
        omega
      · simp [hn]
    rw [harith]

/-! The claims. -/

/-- C1: the claimed behaviour — parsing `key = 'unterminated` (the stream
ends inside the quote) commits `key ↦ "unterminated"` — does not hold of
the code: at true end-of-stream `fconf.get(c)` fails before the in-loop
`c == EOF` check ever runs, the loop simply exits, and the function
returns 0 with an empty map; the accumulated value is discarded.  The
commit-at-`EOF` branch (lines 71-77 of the source) is evidently intended
for this case but is reachable only by reading a literal `0xFF` byte. -/
theorem unterminated_quote_commits_nothing :
    parse_config ("key = 'unterminated".toList) = (0, []) := by decide

/-- C2: whenever `parse_config` returns a non-zero code, the code is one
of `CONFERR_WRONGSYNTAX`, `CONFERR_WRONGPARAM` and `CONFERR_WRONGVALUE`,
the destination map is empty (it is cleared before the error returns,
so no partial pairs reach the caller), and appending any further input
does not change the result: the scan aborted at the offending character. -/
theorem parse_error_clears_and_aborts (input : List Char)
    (h : (parse_config input).1 ≠ 0) :
    ((parse_config input).1 = CONFERR_WRONGSYNTAX ∨
      (parse_config input).1 = CONFERR_WRONGPARAM ∨
      (parse_config input).1 = CONFERR_WRONGVALUE) ∧
    (parse_config input).2 = [] ∧
    ∀ t, parse_config (input ++ t) = parse_config input :=
  parseLoop_error_spec input initSt h

/-- Witness for `parse_error_clears_and_aborts` at the concrete input `-`
(a name may not start with `-`, so the scan fails at the first character). -/
theorem parse_error_clears_and_aborts_witness :
    (parse_config ("-".toList)).1 ≠ 0 ∧
    (parse_config ("-".toList)).2 = [] ∧
    parse_config ("-".toList ++ "x".toList) = parse_config ("-".toList) := by
  have h := parse_error_clears_and_aborts ("-".toList) (by decide)
  exact ⟨by decide, h.2.1, h.2.2 ("x".toList)⟩

/-- C3: the commit operation inserts `(name, value)` only if the name is
not already present — a duplicate insert leaves the map unchanged and is
no error — and consequently on any run that returns success a binding
already present keeps its value from the first occurrence; concretely two
lines reusing the name `a` keep the first value. -/
theorem duplicate_names_first_wins :
    (∀ (m : ConfigMap) (k v w : String), m.lookup k = some v → mapInsert m k w = m) ∧
    (∀ (cs : List Char) (s : St) (k v : String),
      s.ret.lookup k = some v → (parseLoop cs s).1 = 0 →
      (parseLoop cs s).2.lookup k = some v) ∧
    parse_config ("a=1\na=2\n".toList) = (0, [("a", "1")]) := by
  refine ⟨?_, parseLoop_preserves_lookup, by decide⟩
  intro m k v w h
  exact mapInsert_of_mem w h

/-- Witness for `duplicate_names_first_wins`: a duplicate insert of `a` is
ignored, and a run over `a=2` from a state already holding `a ↦ "1"` still
looks `a` up to `"1"`. -/
theorem duplicate_names_first_wins_witness :
    mapInsert [("a", "1")] "a" "2" = [("a", "1")] ∧
    (parseLoop ("a=2\n".toList)
        ⟨Mode.skipSpace, [], [], 2, [("a", "1")]⟩).2.lookup "a" = some "1" := by
  refine ⟨duplicate_names_first_wins.1 _ "a" "1" "2" (by decide), ?_⟩
  exact duplicate_names_first_wins.2.1 ("a=2\n".toList) _ "a" "1" (by decide) (by decide)

/-- C4 counterexample: for an input line consisting of a name, `=` and an
immediate end of line, the parse succeeds but the map is empty — `a` is
*not* mapped to the empty string as the claim states: the newline after
`=` is consumed as whitespace and nothing is committed. -/
theorem empty_value_at_newline_refuted :
    parse_config ("a=\n".toList) = (0, []) := by decide

/-- C4 (amended): an empty value is committed exactly when `#` follows
`=`: in `parse_skip_space_after_equal`, `#` commits the pending name with
the empty string (so `a=#` yields `a ↦ ""`), while a newline there is
consumed as whitespace without committing anything — the parser keeps
looking for the value on the following lines — so `a=` followed by a
newline, or by the end of the stream, yields an empty map. -/
theorem empty_value_only_with_hash :
    (∀ s : St, s.mode = Mode.skipSpaceAfterEqual →
      step s '#' = Except.ok { s with param_value := [],
                                      ret := mapInsert s.ret (String.mk s.param_name) "",
                                      mode := Mode.skipCommentLine } ∧
      step s '\n' = Except.ok { s with line := s.line + 1 }) ∧
    parse_config ("a=#".toList) = (0, [("a", "")]) ∧
    parse_config ("a=\n".toList) = (0, []) ∧
    parse_config ("a=".toList) = (0, []) := by
  refine ⟨?_, by decide, by decide, by decide⟩
  intro s hm
  exact ⟨by simp [step, hm, isspace], by simp [step, hm, isspace]⟩

/-- Witness for `empty_value_only_with_hash` at a concrete state: a `#`
right after `a=` commits `a ↦ ""` and moves to the comment mode. -/
theorem empty_value_only_with_hash_witness :
    step ⟨Mode.skipSpaceAfterEqual, ['a'], [], 1, []⟩ '#'
      = Except.ok ⟨Mode.skipCommentLine, ['a'], [], 1, [("a", "")]⟩ := by
  have h := (empty_value_only_with_hash.1
    ⟨Mode.skipSpaceAfterEqual, ['a'], [], 1, []⟩ rfl).1
  rw [h]
  simp only [Except.ok.injEq]
  decide

/-- C5 counterexample: the claimed boundary is one character too low — the
claim says a name of 29 characters fails with `CONFERR_WRONGPARAM` and a
value of 254 characters fails with `CONFERR_WRONGVALUE`, yet both parses
succeed (return code 0). -/
theorem length_boundary_refuted :
    (parse_config (List.replicate 29 'a' ++ "=x\n".toList)).1 = 0 ∧
    (parse_config ("v=".toList ++ List.replicate 254 'b' ++ ['\n'])).1 = 0 :=
  ⟨by decide, by decide⟩

/-- C5 (amended): with the default buffer sizes, a name of exactly 29
characters (`CONF_PARAM_NAME_MAX_LEN - 1`, the maximum) is accepted while
one of 30 characters fails with `CONFERR_WRONGPARAM`; a value of exactly
254 characters (`CONF_PARAM_VALUE_MAX_LEN - 1`, the maximum) is accepted
while one of 255 characters fails with `CONFERR_WRONGVALUE`. -/
theorem length_boundaries :
    parse_config (List.replicate (CONF_PARAM_NAME_MAX_LEN - 1) 'a' ++ "=x\n".toList)
      = (0, [(String.mk (List.replicate (CONF_PARAM_NAME_MAX_LEN - 1) 'a'), "x")]) ∧
    parse_config (List.replicate CONF_PARAM_NAME_MAX_LEN 'a' ++ "=x\n".toList)
      = (CONFERR_WRONGPARAM, []) ∧
    parse_config ("v=".toList ++ List.replicate (CONF_PARAM_VALUE_MAX_LEN - 1) 'b' ++ ['\n'])
      = (0, [("v", String.mk (List.replicate (CONF_PARAM_VALUE_MAX_LEN - 1) 'b'))]) ∧
    parse_config ("v=".toList ++ List.replicate CONF_PARAM_VALUE_MAX_LEN 'b' ++ ['\n'])
      = (CONFERR_WRONGVALUE, []) :=
  ⟨by decide, by decide, by decide, by decide⟩

/-- C7: after an unquoted value has been closed by a space the scanner is
in `parse_line_end`, and there any character other than whitespace and `#`
makes the `switch` fail with `CONFERR_WRONGSYNTAX`; consumed by the loop,
such a character aborts the parse at once with that code and an empty
map, whatever input follows. -/
theorem line_end_garbage_wrong_syntax (s : St) (c : Char)
    (hm : s.mode = Mode.lineEnd) (hsp : isspace c = false) (hh : c ≠ '#') :
    step s c = Except.error CONFERR_WRONGSYNTAX ∧
    (c.toNat ≠ 255 → ∀ rest, parseLoop (c :: rest) s = (CONFERR_WRONGSYNTAX, [])) := by
  have hstep : step s c = Except.error CONFERR_WRONGSYNTAX := by
    simp [step, hm, hsp, hh]
  exact ⟨hstep, fun h255 rest => parseLoop_cons_err h255 hstep rest⟩

/-- Witness for `line_end_garbage_wrong_syntax`: a `?` right after the
closed value `b` of `a` aborts with `CONFERR_WRONGSYNTAX`. -/
theorem line_end_garbage_wrong_syntax_witness :
    step ⟨Mode.lineEnd, ['a'], ['b'], 1, [("a", "b")]⟩ '?'
        = Except.error CONFERR_WRONGSYNTAX ∧
    parseLoop ['?'] ⟨Mode.lineEnd, ['a'], ['b'], 1, [("a", "b")]⟩
        = (CONFERR_WRONGSYNTAX, []) := by
  have h := line_end_garbage_wrong_syntax ⟨Mode.lineEnd, ['a'], ['b'], 1, [("a", "b")]⟩
    '?' rfl (by decide) (by decide)
  exact ⟨h.1, h.2 (by decide) []⟩

/-- C8: in `parse_skip_space_before_equal` every character other than `=`
is consumed without error and without changing anything but the line
counter, so a whole run of non-`=` text between a name and the first
subsequent `=` is silently discarded and the name is bound to the value
following that `=`, as in `a ?!, = 5`. -/
theorem before_equal_discards_non_equal :
    (∀ (s : St) (c : Char), s.mode = Mode.skipSpaceBeforeEqual → c ≠ '=' →
      step s c = Except.ok { s with line := if c = '\n' then s.line + 1 else s.line }) ∧
    (∀ (junk : List Char) (s : St) (rest : List Char),
      s.mode = Mode.skipSpaceBeforeEqual →
      (∀ c ∈ junk, c ≠ '=' ∧ c.toNat ≠ 255) →
      parseLoop (junk ++ rest) s =
        parseLoop rest { s with line := s.line + junk.countP (fun c => c = '\n') }) ∧
    parse_config ("a ?!, = 5\n".toList) = (0, [("a", "5")]) :=
  ⟨step_skipBeforeEqual, parseLoop_skipBeforeEqual_run, by decide⟩

/-- Witness for `before_equal_discards_non_equal`: a `?` in that state is
consumed in place, and the junk `?!,` before `= 5` is discarded. -/
theorem before_equal_discards_non_equal_witness :
    step ⟨Mode.skipSpaceBeforeEqual, ['a'], [], 1, []⟩ '?'
        = Except.ok ⟨Mode.skipSpaceBeforeEqual, ['a'], [], 1, []⟩ ∧
    parseLoop ("?!,".toList ++ "= 5\n".toList)
        ⟨Mode.skipSpaceBeforeEqual, ['a'], [], 1, []⟩
      = parseLoop ("= 5\n".toList) ⟨Mode.skipSpaceBeforeEqual, ['a'], [], 1, []⟩ := by
  constructor
  · have h := before_equal_discards_non_equal.1
      ⟨Mode.skipSpaceBeforeEqual, ['a'], [], 1, []⟩ '?' rfl (by decide)
    rw [h]
    simp only [Except.ok.injEq]
    decide
  · have h := before_equal_discards_non_equal.2.1 ("?!,".toList)
      ⟨Mode.skipSpaceBeforeEqual, ['a'], [], 1, []⟩ ("= 5\n".toList) rfl (by decide)
    rw [h]
    decide

/-- C9: the closing delimiter of a quoted value commits the pair and
returns the scanner to `parse_skip_space` — not to `parse_line_end` — so
further text on the same line is parsed as a new parameter: `a='x' b='y'`
yields both pairs, and a character that may not start a name after a
quoted value fails with `CONFERR_WRONGPARAM` (the `skip_space` error),
not `CONFERR_WRONGSYNTAX`. -/
theorem quote_close_returns_to_skip_space :
    (∀ s : St, s.mode = Mode.valueInSingleQuote →
      step s '\'' = Except.ok { s with ret := mapInsert s.ret (String.mk s.param_name)
                                                (String.mk s.param_value),
                                       mode := Mode.skipSpace }) ∧
    (∀ s : St, s.mode = Mode.valueInDoubleQuote →
      step s '"' = Except.ok { s with ret := mapInsert s.ret (String.mk s.param_name)
                                               (String.mk s.param_value),
                                      mode := Mode.skipSpace }) ∧
    (∀ (s : St) (c : Char), s.mode = Mode.skipSpace → isalpha c = false →
      isspace c = false → c ≠ '#' → step s c = Except.error CONFERR_WRONGPARAM) ∧
    parse_config ("a='x' b='y'\n".toList) = (0, [("a", "x"), ("b", "y")]) ∧
    parse_config ("a='x' ?\n".toList) = (CONFERR_WRONGPARAM, []) := by
  refine ⟨?_, ?_, ?_, by decide, by decide⟩
  · intro s hm
    simp [step, hm]
  · intro s hm
    simp [step, hm]
  · intro s c hm h1 h2 h3
    have hn : c ≠ '\n' := by
      intro h
      subst h
      simp [isspace] at h2
    simp [step, hm, h1, h2, h3, hn]

/-- Witness for `quote_close_returns_to_skip_space` at concrete states:
closing quotes commit and return to `skip_space`; a `?` there gives
`CONFERR_WRONGPARAM`. -/
theorem quote_close_returns_to_skip_space_witness :
    step ⟨Mode.valueInSingleQuote, ['a'], ['x'], 1, []⟩ '\''
        = Except.ok ⟨Mode.skipSpace, ['a'], ['x'], 1, [("a", "x")]⟩ ∧
    step ⟨Mode.valueInDoubleQuote, ['a'], ['x'], 1, []⟩ '"'
        = Except.ok ⟨Mode.skipSpace, ['a'], ['x'], 1, [("a", "x")]⟩ ∧
    step ⟨Mode.skipSpace, ['a'], ['x'], 1, [("a", "x")]⟩ '?'
        = Except.error CONFERR_WRONGPARAM := by
  refine ⟨?_, ?_, ?_⟩
  · have h := quote_close_returns_to_skip_space.1
      ⟨Mode.valueInSingleQuote, ['a'], ['x'], 1, []⟩ rfl
    rw [h]
    simp only [Except.ok.injEq]
    decide
  · have h := quote_close_returns_to_skip_space.2.1
      ⟨Mode.valueInDoubleQuote, ['a'], ['x'], 1, []⟩ rfl
    rw [h]
    simp only [Except.ok.injEq]
    decide
  · exact quote_close_returns_to_skip_space.2.2.1 _ '?' rfl (by decide) (by decide)
      (by decide)

/-- C10: reading the byte `0xFF` — which compares equal to `EOF` when
`char` is signed — stops the scan at that character and returns 0,
ignoring everything after it; if the scanner was inside a single- or
double-quoted value the accumulated value is committed under the pending
name first, otherwise nothing is committed. -/
theorem eof_byte_stops_scan :
    (∀ (c : Char) (cs : List Char) (s : St), c.toNat = 255 →
      parseLoop (c :: cs) s =
        (0, if inQuote s.mode then
              mapInsert s.ret (String.mk s.param_name) (String.mk s.param_value)
            else s.ret)) ∧
    parse_config ("a='x".toList ++ [Char.ofNat 255] ++ "garbage".toList)
      = (0, [("a", "x")]) ∧
    parse_config ("a=b".toList ++ [Char.ofNat 255] ++ "c".toList) = (0, []) := by
  refine ⟨?_, by decide, by decide⟩
  intro c cs s h255
  simp only [parseLoop, if_pos h255]
  by_cases hq : inQuote s.mode = true
  · rw [if_pos hq, if_pos hq]
  · rw [if_neg hq, if_neg hq]

/-- Witness for `eof_byte_stops_scan`: the `0xFF` byte inside a
single-quoted value commits the pending pair and stops with success. -/
theorem eof_byte_stops_scan_witness :
    parseLoop [Char.ofNat 255] ⟨Mode.valueInSingleQuote, ['a'], ['x'], 1, []⟩
      = (0, [("a", "x")]) := by
  have h := eof_byte_stops_scan.1 (Char.ofNat 255) []
    ⟨Mode.valueInSingleQuote, ['a'], ['x'], 1, []⟩ (by decide)
  rw [h]
  decide

/-- A character that is not a space is in particular not a newline. -/
theorem ne_newline_of_not_isspace {c : Char} (h : isspace c = false) : c ≠ '\n' := by
  intro hc
  subst hc
  simp [isspace] at h

/-- C6: for a nonempty value `v` (within the length bound) containing no
whitespace, no `#`, neither quote delimiter and no `0xFF` byte, the lines
`k=v`, `k='v'` and `k="v"` parse to the identical single entry `k ↦ v`:
surrounding quotes are stripped and the value is otherwise unchanged. -/
theorem quoting_round_trip (v : List Char) (hne : v ≠ [])
    (hlen : v.length ≤ CONF_PARAM_VALUE_MAX_LEN - 1)
    (hchar : ∀ c ∈ v, isspace c = false ∧ c ≠ '#' ∧ c ≠ '\'' ∧ c ≠ '"' ∧ c.toNat ≠ 255) :
    parse_config ("k=".toList ++ v ++ ['\n']) = (0, [("k", String.mk v)]) ∧
    parse_config ("k='".toList ++ v ++ "'\n".toList) = (0, [("k", String.mk v)]) ∧
    parse_config ("k=\"".toList ++ v ++ "\"\n".toList) = (0, [("k", String.mk v)]) := by
  refine ⟨?_, ?_, ?_⟩
  · -- unquoted
    cases v with
    | nil => exact absurd rfl hne
    | cons c v =>
      obtain ⟨hsp, hh, hq1, hq2, h255⟩ := hchar c (List.mem_cons_self c v)
      have e1 : "k=".toList ++ (c :: v) ++ ['\n'] = 'k' :: '=' :: c :: (v ++ ['\n']) := by
        simp
      rw [parse_config, e1]
      rw [parseLoop_cons_ok (by decide)
        (show step initSt 'k' = Except.ok ⟨Mode.paramName, ['k'], [], 1, []⟩ by rfl)]
      rw [parseLoop_cons_ok (by decide)
        (show step ⟨Mode.paramName, ['k'], [], 1, []⟩ '='
          = Except.ok ⟨Mode.skipSpaceAfterEqual, ['k'], [], 1, []⟩ by rfl)]
      have hstep3 : step ⟨Mode.skipSpaceAfterEqual, ['k'], [], 1, []⟩ c
          = Except.ok ⟨Mode.value, ['k'], [c], 1, []⟩ := by
        simp [step, hsp, hh, hq1, hq2]
      rw [parseLoop_cons_ok h255 hstep3]
      have hrun := parseLoop_value_run v ⟨Mode.value, ['k'], [c], 1, []⟩ ['\n'] rfl
        (fun d hd => ⟨(hchar d (List.mem_cons_of_mem c hd)).1,
          (hchar d (List.mem_cons_of_mem c hd)).2.1,
          (hchar d (List.mem_cons_of_mem c hd)).2.2.2.2⟩)
        (by simp only [List.length_cons] at hlen ⊢; simp; omega)
      rw [hrun]
      have hcommit : step ⟨Mode.value, ['k'], [c] ++ v, 1, []⟩ '\n'
          = Except.ok ⟨Mode.skipSpace, ['k'], [c] ++ v, 2, [("k", String.mk ([c] ++ v))]⟩ := by
        simp [step, isspace, mapInsert]
      rw [parseLoop_cons_ok (by decide) hcommit]
      simp [parseLoop]
  · -- single-quoted
    have e1 : "k='".toList ++ v ++ "'\n".toList = 'k' :: '=' :: '\'' :: (v ++ ['\'', '\n']) := by
      simp
    rw [parse_config, e1]
    rw [parseLoop_cons_ok (by decide)
      (show step initSt 'k' = Except.ok ⟨Mode.paramName, ['k'], [], 1, []⟩ by rfl)]
    rw [parseLoop_cons_ok (by decide)
      (show step ⟨Mode.paramName, ['k'], [], 1, []⟩ '='
        = Except.ok ⟨Mode.skipSpaceAfterEqual, ['k'], [], 1, []⟩ by rfl)]
    rw [parseLoop_cons_ok (by decide)
      (show step ⟨Mode.skipSpaceAfterEqual, ['k'], [], 1, []⟩ '\''
        = Except.ok ⟨Mode.valueInSingleQuote, ['k'], [], 1, []⟩ by rfl)]
    have hrun := parseLoop_squote_run v ⟨Mode.valueInSingleQuote, ['k'], [], 1, []⟩ ['\'', '\n'] rfl
      (fun d hd => ⟨(hchar d hd).2.2.1, ne_newline_of_not_isspace (hchar d hd).1,
        (hchar d hd).2.2.2.2⟩)
      (by simpa using hlen)
    rw [hrun]
    have hclose : step ⟨Mode.valueInSingleQuote, ['k'], [] ++ v, 1, []⟩ '\''
        = Except.ok ⟨Mode.skipSpace, ['k'], [] ++ v, 1, [("k", String.mk ([] ++ v))]⟩ := by
      simp [step, mapInsert]
    rw [parseLoop_cons_ok (by decide) hclose]
    rw [parseLoop_cons_ok (by decide)
      (show step ⟨Mode.skipSpace, ['k'], [] ++ v, 1, [("k", String.mk ([] ++ v))]⟩ '\n'
        = Except.ok ⟨Mode.skipSpace, ['k'], [] ++ v, 2, [("k", String.mk ([] ++ v))]⟩ by
          simp [step])]
    simp [parseLoop]
  · -- double-quoted
    have e1 : "k=\"".toList ++ v ++ "\"\n".toList = 'k' :: '=' :: '"' :: (v ++ ['"', '\n']) := by
      simp
    rw [parse_config, e1]
    rw [parseLoop_cons_ok (by decide)
      (show step initSt 'k' = Except.ok ⟨Mode.paramName, ['k'], [], 1, []⟩ by rfl)]
    rw [parseLoop_cons_ok (by decide)
      (show step ⟨Mode.paramName, ['k'], [], 1, []⟩ '='
        = Except.ok ⟨Mode.skipSpaceAfterEqual, ['k'], [], 1, []⟩ by rfl)]
    rw [parseLoop_cons_ok (by decide)
      (show step ⟨Mode.skipSpaceAfterEqual, ['k'], [], 1, []⟩ '"'
        = Except.ok ⟨Mode.valueInDoubleQuote, ['k'], [], 1, []⟩ by rfl)]
    have hrun := parseLoop_dquote_run v ⟨Mode.valueInDoubleQuote, ['k'], [], 1, []⟩ ['"', '\n'] rfl
      (fun d hd => ⟨(hchar d hd).2.2.2.1, ne_newline_of_not_isspace (hchar d hd).1,
        (hchar d hd).2.2.2.2⟩)
      (by simpa using hlen)
    rw [hrun]
    have hclose : step ⟨Mode.valueInDoubleQuote, ['k'], [] ++ v, 1, []⟩ '"'
        = Except.ok ⟨Mode.skipSpace, ['k'], [] ++ v, 1, [("k", String.mk ([] ++ v))]⟩ := by
      simp [step, mapInsert]
    rw [parseLoop_cons_ok (by decide) hclose]
    rw [parseLoop_cons_ok (by decide)
      (show step ⟨Mode.skipSpace, ['k'], [] ++ v, 1, [("k", String.mk ([] ++ v))]⟩ '\n'
        = Except.ok ⟨Mode.skipSpace, ['k'], [] ++ v, 2, [("k", String.mk ([] ++ v))]⟩ by
          simp [step])]
    simp [parseLoop]

/-- Witness for `quoting_round_trip` at the one-character value `x`. -/
theorem quoting_round_trip_witness :
    parse_config ("k=x\n".toList) = (0, [("k", "x")]) ∧
    parse_config ("k='x'\n".toList) = (0, [("k", "x")]) ∧
    parse_config ("k=\"x\"\n".toList) = (0, [("k", "x")]) := by
  obtain ⟨h1, h2, h3⟩ := quoting_round_trip ['x'] (by decide) (by decide) (by decide)
  refine ⟨?_, ?_, ?_⟩
  · rw [show "k=x\n".toList = "k=".toList ++ ['x'] ++ ['\n'] from rfl]
    exact h1
  · rw [show "k='x'\n".toList = "k='".toList ++ ['x'] ++ "'\n".toList from rfl]
    exact h2
  · rw [show "k=\"x\"\n".toList = "k=\"".toList ++ ['x'] ++ "\"\n".toList from rfl]
    exact h3

end CppParseConfig
